import Mathlib

/-!
Verification of `ran2.py`: a pipeline that generates a random alphanumeric
string, SHA-512-hashes it between two random salts, re-hashes, maps characters
to numbers, sums them, and reduces the sum through SHA-256 to a ten-digit
number.  Python strings are modelled as Lean `String`, bytes as `List Nat`
(each < 256), Python `int` as `Int`/`Nat`, and the `secrets.choice` entropy
source as an explicit oracle `Nat → Fin 62`.
-/

namespace Ran2

/-! ### Python `string` module constants -/

def ascii_lowercase : List Char := "abcdefghijklmnopqrstuvwxyz".toList

def ascii_uppercase : List Char := "ABCDEFGHIJKLMNOPQRSTUVWXYZ".toList

def ascii_letters : List Char := ascii_lowercase ++ ascii_uppercase

def string_digits : List Char := "0123456789".toList

/-- `string.ascii_letters + string.digits`, the 62-symbol alphabet used by
`generate_random_string` and `generate_salt`. -/
def characters : List Char := ascii_letters ++ string_digits

/-! ### UTF-8 encoding (`str.encode('utf-8')`) -/

/-- Standard UTF-8 encoding of a single Unicode scalar value, as bytes. -/
def utf8EncodeChar (c : Char) : List Nat :=
  let n := c.toNat
  if n < 0x80 then [n]
  else if n < 0x800 then
    [0xC0 ||| (n >>> 6), 0x80 ||| (n &&& 0x3F)]
  else if n < 0x10000 then
    [0xE0 ||| (n >>> 12), 0x80 ||| ((n >>> 6) &&& 0x3F), 0x80 ||| (n &&& 0x3F)]
  else
    [0xF0 ||| (n >>> 18), 0x80 ||| ((n >>> 12) &&& 0x3F),
     0x80 ||| ((n >>> 6) &&& 0x3F), 0x80 ||| (n &&& 0x3F)]

/-- `s.encode('utf-8')` as a byte list. -/
def encodeUtf8 (s : String) : List Nat :=
  s.toList.foldr (fun c acc => utf8EncodeChar c ++ acc) []

/-! ### SHA-2 (FIPS 180-4), parametric over the word size -/

/-- The parameters distinguishing SHA-256 from SHA-512. -/
structure ShaParams where
  wordBits : Nat
  blockBytes : Nat
  lenBytes : Nat
  rounds : Nat
  K : List Nat
  H0 : List Nat
  s0rot : Nat × Nat × Nat
  s1rot : Nat × Nat × Nat
  S0rot : Nat × Nat × Nat
  S1rot : Nat × Nat × Nat

def rotr (bits x n : Nat) : Nat :=
  ((x >>> n) ||| (x <<< (bits - n))) % 2 ^ bits

/-- Small sigma: two rotations and a shift, xored. -/
def smallSigma (bits : Nat) (r : Nat × Nat × Nat) (x : Nat) : Nat :=
  rotr bits x r.1 ^^^ rotr bits x r.2.1 ^^^ (x >>> r.2.2)

/-- Big sigma: three rotations, xored. -/
def bigSigma (bits : Nat) (r : Nat × Nat × Nat) (x : Nat) : Nat :=
  rotr bits x r.1 ^^^ rotr bits x r.2.1 ^^^ rotr bits x r.2.2

/-- `k` bytes of `n`, big-endian (truncating `n` to `k` bytes). -/
def natToBytesBE : Nat → Nat → List Nat
  | 0, _ => []
  | k + 1, n => natToBytesBE k (n >>> 8) ++ [n &&& 0xFF]

/-- Big-endian word from bytes. -/
def bytesToWordBE (bs : List Nat) : Nat :=
  bs.foldl (fun acc b => acc * 256 + b) 0

/-- Split a list into chunks of `k` elements (fuel-driven for kernel
reduction; `fuel ≥ l.length` suffices). -/
def chunksAux (k : Nat) : Nat → List Nat → List (List Nat)
  | 0, _ => []
  | fuel + 1, l => if l.isEmpty then [] else l.take k :: chunksAux k fuel (l.drop k)

/-- Merkle–Damgård padding: `0x80`, zeros to `blockBytes - lenBytes` mod
`blockBytes`, then the bit length on `lenBytes` bytes big-endian. -/
def shaPad (p : ShaParams) (msg : List Nat) : List Nat :=
  let l := msg.length
  let target := p.blockBytes - p.lenBytes
  let zeros := (p.blockBytes + target - (l + 1) % p.blockBytes) % p.blockBytes
  msg ++ [0x80] ++ List.replicate zeros 0 ++ natToBytesBE p.lenBytes (8 * l)

/-- Extend the 16 block words to `rounds` words of message schedule. -/
def shaExtend (p : ShaParams) : Nat → List Nat → List Nat
  | 0, W => W
  | t + 1, W =>
    let n := W.length
    let x := (W.getD (n - 16) 0 + smallSigma p.wordBits p.s0rot (W.getD (n - 15) 0) +
              W.getD (n - 7) 0 + smallSigma p.wordBits p.s1rot (W.getD (n - 2) 0)) % 2 ^ p.wordBits
    shaExtend p t (W ++ [x])

/-- One compression round on the 8-word working state. -/
def shaRound (p : ShaParams) (st : Nat × Nat × Nat × Nat × Nat × Nat × Nat × Nat) (kw : Nat × Nat) :
    Nat × Nat × Nat × Nat × Nat × Nat × Nat × Nat :=
  match st with
  | (a, b, c, d, e, f, g, h) =>
    let m := 2 ^ p.wordBits
    let ch := (e &&& f) ^^^ ((e ^^^ (m - 1)) &&& g)
    let t1 := (h + bigSigma p.wordBits p.S1rot e + ch + kw.1 + kw.2) % m
    let maj := (a &&& b) ^^^ (a &&& c) ^^^ (b &&& c)
    let t2 := (bigSigma p.wordBits p.S0rot a + maj) % m
    ((t1 + t2) % m, a, b, c, (d + t1) % m, e, f, g)

/-- The 8-word working state as a list. -/
def stateToList (st : Nat × Nat × Nat × Nat × Nat × Nat × Nat × Nat) : List Nat :=
  [st.1, st.2.1, st.2.2.1, st.2.2.2.1, st.2.2.2.2.1, st.2.2.2.2.2.1,
   st.2.2.2.2.2.2.1, st.2.2.2.2.2.2.2]

/-- Compress one block into the running hash value (a list of 8 words). -/
def shaCompress (p : ShaParams) (H : List Nat) (block : List Nat) : List Nat :=
  let W0 := (chunksAux (p.blockBytes / 16) 16 block).map bytesToWordBE
  let W := shaExtend p (p.rounds - 16) W0
  let init := (H.getD 0 0, H.getD 1 0, H.getD 2 0, H.getD 3 0,
               H.getD 4 0, H.getD 5 0, H.getD 6 0, H.getD 7 0)
  let st := (p.K.zip W).foldl (shaRound p) init
  List.zipWith (fun x y => (x + y) % 2 ^ p.wordBits) H (stateToList st)

/-- The final hash words of a byte message. -/
def shaWords (p : ShaParams) (msg : List Nat) : List Nat :=
  let padded := shaPad p msg
  (chunksAux p.blockBytes padded.length padded).foldl (shaCompress p) p.H0

def hexDigitChar (d : Nat) : Char := "0123456789abcdef".toList.getD d '0'

/-- `width` lowercase hex characters of `n`, big-endian. -/
def natToHex (width n : Nat) : List Char :=
  (List.range width).map (fun i => hexDigitChar ((n >>> (4 * (width - 1 - i))) &&& 0xF))

/-- `.hexdigest()`: each hash word as fixed-width lowercase hex. -/
def shaHexDigest (p : ShaParams) (msg : List Nat) : String :=
  ⟨((shaWords p msg).map (natToHex (p.wordBits / 4))).foldr (· ++ ·) []⟩

def sha512Params : ShaParams where
  wordBits := 64
  blockBytes := 128
  lenBytes := 16
  rounds := 80
  K := [
  4794697086780616226, 8158064640168781261, 13096744586834688815,
  16840607885511220156, 4131703408338449720, 6480981068601479193,
  10538285296894168987, 12329834152419229976, 15566598209576043074,
  1334009975649890238, 2608012711638119052, 6128411473006802146,
  8268148722764581231, 9286055187155687089, 11230858885718282805,
  13951009754708518548, 16472876342353939154, 17275323862435702243,
  1135362057144423861, 2597628984639134821, 3308224258029322869,
  5365058923640841347, 6679025012923562964, 8573033837759648693,
  10970295158949994411, 12119686244451234320, 12683024718118986047,
  13788192230050041572, 14330467153632333762, 15395433587784984357,
  489312712824947311, 1452737877330783856, 2861767655752347644,
  3322285676063803686, 5560940570517711597, 5996557281743188959,
  7280758554555802590, 8532644243296465576, 9350256976987008742,
  10552545826968843579, 11727347734174303076, 12113106623233404929,
  14000437183269869457, 14369950271660146224, 15101387698204529176,
  15463397548674623760, 17586052441742319658, 1182934255886127544,
  1847814050463011016, 2177327727835720531, 2830643537854262169,
  3796741975233480872, 4115178125766777443, 5681478168544905931,
  6601373596472566643, 7507060721942968483, 8399075790359081724,
  8693463985226723168, 9568029438360202098, 10144078919501101548,
  10430055236837252648, 11840083180663258601, 13761210420658862357,
  14299343276471374635, 14566680578165727644, 15097957966210449927,
  16922976911328602910, 17689382322260857208, 500013540394364858,
  748580250866718886, 1242879168328830382, 1977374033974150939,
  2944078676154940804, 3659926193048069267, 4368137639120453308,
  4836135668995329356, 5532061633213252278, 6448918945643986474,
  6902733635092675308, 7801388544844847127]
  H0 := [
  7640891576956012808, 13503953896175478587, 4354685564936845355,
  11912009170470909681, 5840696475078001361, 11170449401992604703,
  2270897969802886507, 6620516959819538809]
  s0rot := (1, 8, 7)
  s1rot := (19, 61, 6)
  S0rot := (28, 34, 39)
  S1rot := (14, 18, 41)

def sha256Params : ShaParams where
  wordBits := 32
  blockBytes := 64
  lenBytes := 8
  rounds := 64
  K := [
  1116352408, 1899447441, 3049323471, 3921009573,
  961987163, 1508970993, 2453635748, 2870763221,
  3624381080, 310598401, 607225278, 1426881987,
  1925078388, 2162078206, 2614888103, 3248222580,
  3835390401, 4022224774, 264347078, 604807628,
  770255983, 1249150122, 1555081692, 1996064986,
  2554220882, 2821834349, 2952996808, 3210313671,
  3336571891, 3584528711, 113926993, 338241895,
  666307205, 773529912, 1294757372, 1396182291,
  1695183700, 1986661051, 2177026350, 2456956037,
  2730485921, 2820302411, 3259730800, 3345764771,
  3516065817, 3600352804, 4094571909, 275423344,
  430227734, 506948616, 659060556, 883997877,
  958139571, 1322822218, 1537002063, 1747873779,
  1955562222, 2024104815, 2227730452, 2361852424,
  2428436474, 2756734187, 3204031479, 3329325298]
  H0 := [
  1779033703, 3144134277, 1013904242, 2773480762,
  1359893119, 2600822924, 528734635, 1541459225]
  s0rot := (7, 18, 3)
  s1rot := (17, 19, 10)
  S0rot := (2, 13, 22)
  S1rot := (6, 11, 25)

/-- `hashlib.sha512(bytes).hexdigest()`. -/
def sha512hexdigest (msg : List Nat) : String := shaHexDigest sha512Params msg

/-- `hashlib.sha256(bytes).hexdigest()`. -/
def sha256hexdigest (msg : List Nat) : String := shaHexDigest sha256Params msg

/-! ### The script's functions -/

/-- The entropy stream behind `secrets.choice(characters)`: the `i`-th draw
picks index `choice i` into the 62-character alphabet. -/
def RandomSource : Type := Nat → Fin characters.length

/-- `generate_random_string(length)` (default length 25): joins `length`
independent draws of `secrets.choice(string.ascii_letters + string.digits)`.
A non-positive length makes `range(length)` empty. -/
def generate_random_string (choice : RandomSource) (length : Int) : String :=
  ⟨(List.range length.toNat).map (fun i => characters.get (choice i))⟩

/-- `generate_salt(length)` (default length 6): same body as
`generate_random_string`. -/
def generate_salt (choice : RandomSource) (length : Int) : String :=
  ⟨(List.range length.toNat).map (fun i => characters.get (choice i))⟩

/-- Advance the entropy stream past the first `k` draws. -/
def shiftSource (k : Nat) (ρ : RandomSource) : RandomSource := fun i => ρ (i + k)

/-- `hash_with_salt(input_string)`: SHA-512 hex digest of the UTF-8 bytes,
sandwiched between two six-character salts drawn from the stream `ρ`
(front salt first, back salt from the next six draws). -/
def hash_with_salt (ρ : RandomSource) (input_string : String) : String :=
  let sha512_hash := sha512hexdigest (encodeUtf8 input_string)
  let front_salt := generate_salt ρ 6
  let back_salt := generate_salt (shiftSource 6 ρ) 6
  front_salt ++ sha512_hash ++ back_salt

/-- `double_hash_base64(input_string)`: plain SHA-512 hex digest of the
UTF-8 bytes (despite the name, no base64 is involved). -/
def double_hash_base64 (input_string : String) : String :=
  sha512hexdigest (encodeUtf8 input_string)

/-- `char_to_number_mapping()`: dict built from three comprehensions —
lowercase enumerated from 1, uppercase from 28, digits from 55.  The key
sets are disjoint, so the dict is this association list. -/
def char_to_number_mapping : List (Char × Nat) :=
  (List.enumFrom 1 ascii_lowercase).map (fun p => (p.2, p.1)) ++
  (List.enumFrom 28 ascii_uppercase).map (fun p => (p.2, p.1)) ++
  (List.enumFrom 55 string_digits).map (fun p => (p.2, p.1))

/-- `calculate_character_sum(input_string)`: sum the mapped value of each
character, falling back to `ord(char) + 66` for unmapped characters. -/
def calculate_character_sum (input_string : String) : Nat :=
  input_string.toList.foldl
    (fun total_sum char =>
      match char_to_number_mapping.lookup char with
      | some v => total_sum + v
      | none => total_sum + (char.toNat + 66)) 0

/-- Does any character of the input take the `ord(char) + 66` fallback
branch of `calculate_character_sum`? -/
def char_sum_fallback_used (input_string : String) : Bool :=
  input_string.toList.any (fun c => (char_to_number_mapping.lookup c).isNone)

/-! ### Decimal rendering (`str(int)` and `f"{n:010}"`) -/

def digitChar (d : Nat) : Char := string_digits.getD d '0'

/-- Decimal digits of `n`, most significant first (fuel-driven;
`fuel ≥ n + 1` suffices since the argument strictly decreases). -/
def natDecAux : Nat → Nat → List Char
  | 0, _ => []
  | fuel + 1, n => if n < 10 then [digitChar n] else natDecAux fuel (n / 10) ++ [digitChar (n % 10)]

/-- Decimal rendering of a natural number. -/
def natDec (n : Nat) : List Char := natDecAux (n + 1) n

/-- `str(z)` for a Python `int`: optional minus sign, then decimal digits. -/
def intDec (z : Int) : List Char :=
  if z < 0 then '-' :: natDec z.natAbs else natDec z.toNat

/-- `f"{n:010}"`: decimal rendering left-padded with zeros to width 10. -/
def format010 (n : Nat) : String :=
  ⟨List.replicate (10 - (natDec n).length) '0' ++ natDec n⟩

/-! ### Base-16 parsing (`int(s, 16)`) -/

def hexCharTable : List (Char × Nat) :=
  [('0', 0), ('1', 1), ('2', 2), ('3', 3), ('4', 4), ('5', 5), ('6', 6), ('7', 7),
   ('8', 8), ('9', 9), ('a', 10), ('b', 11), ('c', 12), ('d', 13), ('e', 14), ('f', 15),
   ('A', 10), ('B', 11), ('C', 12), ('D', 13), ('E', 14), ('F', 15)]

/-- One character of base-16 parsing: fails on the first character outside
the hexadecimal alphabet. -/
def hexStep (acc : Option Nat) (c : Char) : Option Nat :=
  match acc, hexCharTable.lookup c with
  | some a, some v => some (16 * a + v)
  | _, _ => none

/-- `int(s, 16)`: `none` models a raised `ValueError` (empty string or a
character outside the hexadecimal alphabet). -/
def parseHex (cs : List Char) : Option Nat :=
  if cs.isEmpty then none else cs.foldl hexStep (some 0)

/-- `reduce_to_ten_digits(character_sum)`: SHA-256 hex digest of the decimal
rendering, first 10 hex characters parsed base 16, modulo 10^10. -/
def reduce_to_ten_digits (character_sum : Int) : Option Nat :=
  let hashed_number := (sha256hexdigest (encodeUtf8 ⟨intDec character_sum⟩)).toList.take 10
  (parseHex hashed_number).map (fun n => n % 10000000000)

/-! ### `main()` -/

/-- The value computed by `main`'s try block, as a function of the two
entropy streams (one for the 25-character random string, one for the two
salts). -/
def pipeline (ρstr ρsalt : RandomSource) : Option Nat :=
  let random_string := generate_random_string ρstr 25
  let salted_hash := hash_with_salt ρsalt random_string
  let double_hashed := double_hash_base64 salted_hash
  let char_sum := calculate_character_sum double_hashed
  reduce_to_ten_digits (char_sum : Int)

/-- The single line `main` prints on success. -/
def main_stdout (ρstr ρsalt : RandomSource) : Option String :=
  (pipeline ρstr ρsalt).map (fun n => "Ten Digit Number: " ++ format010 n)

/-- `main`'s `try`/`except`: the `except` clause logs and re-raises the same
exception, so it is the identity on both outcomes. -/
def tryLogReraise {ε α : Type} (body : Except ε α) : Except ε α :=
  match body with
  | .ok a => .ok a
  | .error e => .error e

/-- The sequential body of `main` over abstract fallible stages (random
string, salted hash, double hash, character sum, reduce): each stage runs
only if the previous one succeeded, with no retry and no partial result. -/
def mainBody {ε : Type} (st1 : Except ε String) (st2 st3 : String → Except ε String)
    (st4 : String → Except ε Nat) (st5 : Nat → Except ε Nat) : Except ε Nat :=
  st1.bind fun rs => (st2 rs).bind fun sh => (st3 sh).bind fun dh => (st4 dh).bind st5

/-- `main` over abstract fallible stages: the body wrapped in the
log-and-reraise handler. -/
def main_model {ε : Type} (st1 : Except ε String) (st2 st3 : String → Except ε String)
    (st4 : String → Except ε Nat) (st5 : Nat → Except ε Nat) : Except ε Nat :=
  tryLogReraise (mainBody st1 st2 st3 st4 st5)

/-- Process exit status: 0 when `main` returns, nonzero when the exception
propagates out. -/
def exitCode {ε α : Type} : Except ε α → Nat
  | .ok _ => 0
  | .error _ => 1

/-- The spec's description of stage 4.5b applied after 4.5a: render the
character sum as its decimal string, take the SHA-256 lowercase hex digest of
its UTF-8 bytes, parse the first 10 hex characters as a base-16 integer, and
reduce modulo 10,000,000,000. -/
def ten_digit_spec (s : String) : Option Nat :=
  let sum := calculate_character_sum s
  let digest := sha256hexdigest (encodeUtf8 ⟨natDec sum⟩)
  (parseHex (digest.toList.take 10)).map (fun n => n % 10000000000)

/-- The sixteen characters a lowercase hex digest is made of. -/
def hexLowerChars : List Char := "0123456789abcdef".toList

/-! ### Shape of the hex digests -/

theorem natToHex_length (w n : Nat) : (natToHex w n).length = w := by
  simp [natToHex]

theorem shaCompress_length (p : ShaParams) (H block : List Nat) (h : H.length = 8) :
    (shaCompress p H block).length = 8 := by
  simp [shaCompress, stateToList, h]

theorem foldl_shaCompress_length (p : ShaParams) :
    ∀ (blocks : List (List Nat)) (H : List Nat), H.length = 8 →
      (blocks.foldl (shaCompress p) H).length = 8
  | [], _, h => h
  | b :: bs, H, h => foldl_shaCompress_length p bs _ (shaCompress_length p H b h)

theorem shaWords_length (p : ShaParams) (h : p.H0.length = 8) (msg : List Nat) :
    (shaWords p msg).length = 8 :=
  foldl_shaCompress_length p _ _ h

theorem foldr_append_length (w : Nat) :
    ∀ ls : List (List Char), (∀ l ∈ ls, l.length = w) →
      (ls.foldr (fun a b => a ++ b) []).length = ls.length * w
  | [], _ => by simp
  | l :: ls, h => by
    have ih := foldr_append_length w ls (fun x hx => h x (List.mem_cons_of_mem _ hx))
    have hl := h l (List.mem_cons_self _ _)
    simp only [List.foldr_cons, List.length_append, List.length_cons, ih, hl]
    ring

theorem shaHexDigest_length (p : ShaParams) (h : p.H0.length = 8) (msg : List Nat) :
    (shaHexDigest p msg).length = 8 * (p.wordBits / 4) := by
  show (((shaWords p msg).map (natToHex (p.wordBits / 4))).foldr (fun a b => a ++ b) []).length = _
  rw [foldr_append_length]
  · simp [shaWords_length p h]
    ring
  · intro l hl
    obtain ⟨n, _, rfl⟩ := List.mem_map.mp hl
    exact natToHex_length _ _

theorem sha512hexdigest_length (msg : List Nat) : (sha512hexdigest msg).length = 128 :=
  shaHexDigest_length sha512Params rfl msg

theorem sha256hexdigest_length (msg : List Nat) : (sha256hexdigest msg).length = 64 :=
  shaHexDigest_length sha256Params rfl msg

theorem hexDigitChar_mem (d : Nat) (h : d < 16) : hexDigitChar d ∈ hexLowerChars := by
  interval_cases d <;> decide

theorem natToHex_subset (w n : Nat) : ∀ c ∈ natToHex w n, c ∈ hexLowerChars := by
  intro c hc
  obtain ⟨i, _, rfl⟩ := List.mem_map.mp hc
  exact hexDigitChar_mem _ (Nat.lt_succ_of_le (Nat.and_le_right))

theorem mem_foldr_append {α : Type} :
    ∀ (ls : List (List α)) (x : α), x ∈ ls.foldr (fun a b => a ++ b) [] → ∃ l ∈ ls, x ∈ l
  | [], x, hx => by simp at hx
  | l :: ls, x, hx => by
    rcases List.mem_append.mp hx with h1 | h2
    · exact ⟨l, List.mem_cons_self _ _, h1⟩
    · obtain ⟨m, hm, hxm⟩ := mem_foldr_append ls x h2
      exact ⟨m, List.mem_cons_of_mem _ hm, hxm⟩

theorem shaHexDigest_chars (p : ShaParams) (msg : List Nat) :
    ∀ c ∈ (shaHexDigest p msg).toList, c ∈ hexLowerChars := by
  intro c hc
  obtain ⟨l, hl, hcl⟩ := mem_foldr_append _ c hc
  obtain ⟨n, _, rfl⟩ := List.mem_map.mp hl
  exact natToHex_subset _ _ c hcl

/-! ### `int(s, 16)` succeeds on hex-digest characters -/

theorem hexLower_lookup_isSome : ∀ c ∈ hexLowerChars, (hexCharTable.lookup c).isSome := by
  decide

theorem hexStep_foldl_some :
    ∀ (cs : List Char) (a : Nat), (∀ c ∈ cs, (hexCharTable.lookup c).isSome) →
      ∃ v, cs.foldl hexStep (some a) = some v
  | [], a, _ => ⟨a, rfl⟩
  | c :: cs, a, h => by
    obtain ⟨v, hv⟩ := Option.isSome_iff_exists.mp (h c (List.mem_cons_self c cs))
    have ih := hexStep_foldl_some cs (16 * a + v)
      (fun x hx => h x (List.mem_cons_of_mem _ hx))
    simpa [List.foldl_cons, hexStep, hv] using ih

theorem parseHex_some (cs : List Char) (hne : cs ≠ [])
    (h : ∀ c ∈ cs, (hexCharTable.lookup c).isSome) : ∃ v, parseHex cs = some v := by
  have he : cs.isEmpty = false := by
    cases cs
    · exact absurd rfl hne
    · rfl
  rw [parseHex, he]
  simpa using hexStep_foldl_some cs 0 h

/-- `reduce_to_ten_digits` is total: the digest characters all parse and the
modulus bounds the result. -/
theorem reduce_total (z : Int) :
    ∃ v, reduce_to_ten_digits z = some v ∧ v ≤ 9999999999 := by
  set ds := (sha256hexdigest (encodeUtf8 ⟨intDec z⟩)).toList with hds
  have hlen : ds.length = 64 := sha256hexdigest_length _
  have hne : ds.take 10 ≠ [] := by
    have : (ds.take 10).length = 10 := by
      rw [List.length_take, hlen]
      rfl
    intro hnil
    rw [hnil] at this
    simp at this
  have hall : ∀ c ∈ ds.take 10, (hexCharTable.lookup c).isSome := fun c hc =>
    hexLower_lookup_isSome c (shaHexDigest_chars _ _ c (List.take_subset _ _ hc))
  obtain ⟨v, hv⟩ := parseHex_some _ hne hall
  refine ⟨v % 10000000000, ?_, ?_⟩
  · rw [reduce_to_ten_digits, ← hds, hv]
    rfl
  · have := Nat.mod_lt v (show 0 < 10000000000 by omega)
    omega

/-! ### Decimal rendering -/

theorem digitChar_mem (d : Nat) (h : d < 10) : digitChar d ∈ string_digits := by
  interval_cases d <;> decide

theorem natDecAux_length_le :
    ∀ (fuel n k : Nat), 1 ≤ k → n < 10 ^ k → (natDecAux fuel n).length ≤ k
  | 0, n, k, _, _ => by simp [natDecAux]
  | fuel + 1, n, k, hk, hn => by
    rw [natDecAux]
    by_cases h10 : n < 10
    · simpa [h10] using hk
    · rw [if_neg h10]
      have hk2 : 2 ≤ k := by
        rcases k with _ | _ | k
        · omega
        · exact absurd (by simpa using hn) h10
        · omega
      have hdiv : n / 10 < 10 ^ (k - 1) := by
        rw [Nat.div_lt_iff_lt_mul (by omega : 0 < 10)]
        calc n < 10 ^ k := hn
        _ = 10 ^ (k - 1) * 10 := by
            conv_lhs => rw [show k = (k - 1) + 1 by omega]
            ring
      have ih := natDecAux_length_le fuel (n / 10) (k - 1) (by omega) hdiv
      simp only [List.length_append, List.length_cons, List.length_nil]
      omega

theorem natDecAux_digits :
    ∀ (fuel n : Nat), ∀ c ∈ natDecAux fuel n, c ∈ string_digits
  | 0, n => by simp [natDecAux]
  | fuel + 1, n => by
    rw [natDecAux]
    by_cases h10 : n < 10
    · intro c hc
      rw [if_pos h10] at hc
      simp only [List.mem_singleton] at hc
      exact hc ▸ digitChar_mem n h10
    · intro c hc
      rw [if_neg h10] at hc
      rcases List.mem_append.mp hc with h1 | h2
      · exact natDecAux_digits fuel (n / 10) c h1
      · simp only [List.mem_singleton] at h2
        exact h2 ▸ digitChar_mem _ (Nat.mod_lt _ (by omega))

theorem natDecAux_ne_nil (fuel n : Nat) : natDecAux (fuel + 1) n ≠ [] := by
  rw [natDecAux]
  by_cases h : n < 10 <;> simp [h]

theorem natDec_length_le (n k : Nat) (hk : 1 ≤ k) (hn : n < 10 ^ k) :
    (natDec n).length ≤ k :=
  natDecAux_length_le (n + 1) n k hk hn

theorem natDec_digits (n : Nat) : ∀ c ∈ natDec n, c ∈ string_digits :=
  natDecAux_digits (n + 1) n

theorem string_digits_isDigit : ∀ c ∈ string_digits, c.isDigit := by decide

theorem format010_length (n : Nat) (h : n < 10 ^ 10) : (format010 n).length = 10 := by
  have h1 := natDec_length_le n 10 (by omega) h
  show (List.replicate (10 - (natDec n).length) '0' ++ natDec n).length = 10
  simp only [List.length_append, List.length_replicate]
  omega

theorem format010_digits (n : Nat) : ∀ c ∈ (format010 n).toList, c.isDigit := by
  intro c hc
  rcases List.mem_append.mp hc with h1 | h2
  · rw [List.eq_of_mem_replicate h1]
    decide
  · exact string_digits_isDigit c (natDec_digits n c h2)

/-! ### Random strings and salts -/

theorem generate_random_string_length (choice : RandomSource) (L : Int) :
    (generate_random_string choice L).length = L.toNat := by
  show ((List.range L.toNat).map _).length = L.toNat
  simp

theorem generate_random_string_chars (choice : RandomSource) (L : Int) :
    ∀ c ∈ (generate_random_string choice L).toList, c ∈ characters := by
  intro c hc
  obtain ⟨i, _, rfl⟩ := List.mem_map.mp hc
  exact List.get_mem _ _ _

theorem generate_salt_length (τ : RandomSource) : (generate_salt τ 6).length = 6 := by
  show ((List.range (Int.toNat 6)).map _).length = 6
  simp

theorem intDec_natCast (n : Nat) : intDec (n : Int) = natDec n := by
  rw [intDec, if_neg (by omega : ¬(n : Int) < 0)]
  rfl

/-- A concrete entropy stream (always the first alphabet symbol), used to
instantiate universally quantified theorems. -/
def constSource : RandomSource := fun _ => ⟨0, by decide⟩

/-! ### The claims -/

/-- C1: for every entropy stream and every input string, `hash_with_salt`
returns a string of length `2*6 + 128 = 140` whose middle 128 characters
(positions 6..133) are exactly `double_hash_base64` of the same input — the
SHA-512 lowercase hex digest of its UTF-8 bytes; the middle slice is the same
for every entropy stream, so only the first and last 6 characters depend on
randomness. -/
theorem C1_hash_with_salt_shape (ρ : RandomSource) (s : String) :
    (hash_with_salt ρ s).length = 2 * 6 + 128 ∧
    ((hash_with_salt ρ s).toList.drop 6).take 128 = (double_hash_base64 s).toList ∧
    ∀ ρ' : RandomSource,
      ((hash_with_salt ρ' s).toList.drop 6).take 128 =
        ((hash_with_salt ρ s).toList.drop 6).take 128 := by
  have hsalt : ∀ τ : RandomSource, (generate_salt τ 6).data.length = 6 :=
    fun τ => generate_salt_length τ
  have hmid : ∀ τ : RandomSource,
      ((hash_with_salt τ s).toList.drop 6).take 128 = (double_hash_base64 s).toList := by
    intro τ
    show (((generate_salt τ 6 ++ double_hash_base64 s ++
        generate_salt (shiftSource 6 τ) 6)).data.drop 6).take 128 = (double_hash_base64 s).data
    have hdh : (double_hash_base64 s).data.length = 128 :=
      sha512hexdigest_length (encodeUtf8 s)
    rw [String.data_append, String.data_append, List.append_assoc,
      List.drop_left' (hsalt τ), List.take_left' hdh]
  refine ⟨?_, hmid ρ, fun ρ' => (hmid ρ').trans (hmid ρ).symm⟩
  show (generate_salt ρ 6 ++ sha512hexdigest (encodeUtf8 s) ++
      generate_salt (shiftSource 6 ρ) 6).length = 2 * 6 + 128
  rw [String.length_append, String.length_append, generate_salt_length,
    generate_salt_length, sha512hexdigest_length]

/-- C2: for every input string (the empty string included), composing
`calculate_character_sum` with `reduce_to_ten_digits` succeeds and equals the
spec-side formula (decimal rendering, SHA-256 hex digest, first 10 hex
characters parsed base 16, modulo 10^10), with a result in
[0, 9999999999]. -/
theorem C2_sum_reduce (s : String) :
    ∃ v, reduce_to_ten_digits (calculate_character_sum s : Int) = some v ∧
      reduce_to_ten_digits (calculate_character_sum s : Int) = ten_digit_spec s ∧
      v ≤ 9999999999 := by
  obtain ⟨v, hv, hle⟩ := reduce_total (calculate_character_sum s : Int)
  refine ⟨v, hv, ?_, hle⟩
  rw [reduce_to_ten_digits, ten_digit_spec, intDec_natCast]

/-- C3: `generate_random_string` returns a string of length exactly `L` for
`L ≥ 0` and the empty string for `L ≤ 0`, every character drawn from the
62-symbol alphabet; `generate_salt` is the very same function of the choice
stream and length. -/
theorem C3_random_string_contract (choice : RandomSource) (L : Int) :
    (0 ≤ L → ((generate_random_string choice L).length : Int) = L) ∧
    (L ≤ 0 → generate_random_string choice L = "") ∧
    (∀ c ∈ (generate_random_string choice L).toList, c ∈ characters) ∧
    generate_salt choice L = generate_random_string choice L := by
  refine ⟨?_, ?_, generate_random_string_chars choice L, rfl⟩
  · intro h0
    rw [generate_random_string_length]
    omega
  · intro h0
    have hz : L.toNat = 0 := by omega
    show String.mk ((List.range L.toNat).map fun i => characters.get (choice i)) = ""
    rw [hz]
    rfl

/-- Witness for C3: a concrete stream at lengths 5 and -3. -/
theorem C3_witness :
    ((generate_random_string constSource 5).length : Int) = 5 ∧
    generate_random_string constSource (-3) = "" :=
  ⟨(C3_random_string_contract constSource 5).1 (by decide),
   (C3_random_string_contract constSource (-3)).2.1 (by decide)⟩

set_option maxRecDepth 100000 in
/-- C4: `double_hash_base64` is a pure deterministic function — two
evaluations on the same string are equal, the output is the SHA-512 lowercase
hex digest of the UTF-8 bytes with 128 characters and no salting, and on
"test" it is the well-known SHA-512 digest of the bytes 74 65 73 74. -/
theorem C4_double_hash_pure :
    (∀ s, double_hash_base64 s = double_hash_base64 s) ∧
    (∀ s, double_hash_base64 s = sha512hexdigest (encodeUtf8 s)) ∧
    (∀ s, (double_hash_base64 s).length = 128) ∧
    double_hash_base64 "test" =
      "ee26b0dd4af7e749aa1a8ee3c10ae9923f618980772e473f8819a5d4940e0db27ac185f8a0e1d5f84f88bc887fd67b143732c304cc5fa9ad8e6f57f50028a8ff" :=
  ⟨fun _ => rfl, fun _ => rfl, fun s => sha512hexdigest_length (encodeUtf8 s), by decide⟩

/-- C5: the character map contains exactly the 62 alphabet symbols, in the
alphabet's order, with lowercase a–z mapped to 1..26, uppercase A–Z to
28..53, digits 0–9 to 55..64, and the values 27 and 54 assigned to no
symbol. -/
theorem C5_char_map_values :
    char_to_number_mapping.map Prod.fst = characters ∧
    char_to_number_mapping.map Prod.snd =
      List.range' 1 26 ++ List.range' 28 26 ++ List.range' 55 10 ∧
    char_to_number_mapping.length = 62 ∧
    char_to_number_mapping.lookup 'a' = some 1 ∧
    char_to_number_mapping.lookup 'z' = some 26 ∧
    char_to_number_mapping.lookup 'A' = some 28 ∧
    char_to_number_mapping.lookup 'Z' = some 53 ∧
    char_to_number_mapping.lookup '0' = some 55 ∧
    char_to_number_mapping.lookup '9' = some 64 ∧
    27 ∉ char_to_number_mapping.map Prod.snd ∧
    54 ∉ char_to_number_mapping.map Prod.snd := by
  decide

/-- C6: for every pair of entropy streams the pipeline succeeds and `main`
prints the single line `Ten Digit Number: NNNNNNNNNN` with the result
zero-padded to exactly 10 decimal digits. -/
theorem C6_stdout_format (ρstr ρsalt : RandomSource) :
    ∃ n, pipeline ρstr ρsalt = some n ∧
      main_stdout ρstr ρsalt = some ("Ten Digit Number: " ++ format010 n) ∧
      (format010 n).length = 10 ∧
      ∀ c ∈ (format010 n).toList, c.isDigit := by
  obtain ⟨v, hv, hle⟩ := reduce_total
    ((calculate_character_sum
      (double_hash_base64 (hash_with_salt ρsalt (generate_random_string ρstr 25))) : Nat) : Int)
  have hp : pipeline ρstr ρsalt = some v := hv
  have hv10 : v < 10 ^ 10 := by
    calc v ≤ 9999999999 := hle
    _ < 10 ^ 10 := by norm_num
  refine ⟨v, hp, ?_, format010_length v hv10, format010_digits v⟩
  show (pipeline ρstr ρsalt).map _ = _
  rw [hp]
  rfl

/-- C7: `main` does no retries and returns no partial result — any exception
from a stage is re-raised unchanged after logging, giving a nonzero exit
status, and the exit status is 0 exactly when every stage succeeds. -/
theorem C7_error_propagation {ε : Type} (st1 : Except ε String)
    (st2 st3 : String → Except ε String) (st4 : String → Except ε Nat)
    (st5 : Nat → Except ε Nat) :
    (∀ e, mainBody st1 st2 st3 st4 st5 = Except.error e →
        main_model st1 st2 st3 st4 st5 = Except.error e ∧
        exitCode (main_model st1 st2 st3 st4 st5) ≠ 0) ∧
    (exitCode (main_model st1 st2 st3 st4 st5) = 0 ↔
        ∃ n, mainBody st1 st2 st3 st4 st5 = Except.ok n) := by
  have hid : main_model st1 st2 st3 st4 st5 = mainBody st1 st2 st3 st4 st5 := by
    rw [main_model]
    rcases mainBody st1 st2 st3 st4 st5 with e | a <;> rfl
  rw [hid]
  constructor
  · intro e he
    rw [he]
    exact ⟨rfl, by simp [exitCode]⟩
  · rcases mainBody st1 st2 st3 st4 st5 with e | a
    · simp [exitCode]
    · simp [exitCode]

/-- Witness for C7: a concrete run whose third stage raises `7` — `main`
re-raises exactly that exception. -/
theorem C7_witness :
    main_model (Except.ok "r") (fun x => Except.ok x) (fun _ => Except.error 7)
      (fun _ => Except.ok 0) (fun _ => Except.ok 0) = Except.error 7 ∧
    exitCode (main_model (Except.ok "r") (fun x => Except.ok x) (fun _ => Except.error 7)
      (fun _ => Except.ok 0) (fun _ => Except.ok 0)) ≠ 0 :=
  (C7_error_propagation (Except.ok "r") (fun x => Except.ok x) (fun _ => Except.error 7)
    (fun _ => Except.ok 0) (fun _ => Except.ok 0)).1 7 rfl

/-- C8: a string whose characters all come from the lowercase hex alphabet
0-9a-f (such as any SHA-512 hex digest) has every character in the character
map, so the `ord(char) + 66` fallback branch of `calculate_character_sum`
is never taken. -/
theorem C8_hex_no_fallback (s : String) (h : ∀ c ∈ s.toList, c ∈ hexLowerChars) :
    (∀ c ∈ s.toList, (char_to_number_mapping.lookup c).isSome) ∧
    char_sum_fallback_used s = false := by
  have hmap : ∀ c ∈ hexLowerChars, (char_to_number_mapping.lookup c).isSome := by decide
  refine ⟨fun c hc => hmap c (h c hc), ?_⟩
  rw [char_sum_fallback_used, List.any_eq_false]
  intro c hc
  have hs := hmap c (h c hc)
  rcases hx : char_to_number_mapping.lookup c with _ | v
  · rw [hx] at hs
    simp at hs
  · simp [hx]

/-- Witness for C8: the concrete hex string "0a9f". -/
theorem C8_witness :
    (∀ c ∈ ("0a9f" : String).toList, (char_to_number_mapping.lookup c).isSome) ∧
    char_sum_fallback_used "0a9f" = false :=
  C8_hex_no_fallback "0a9f" (by decide)

/-- C9: the character map is injective — its 62 keys are pairwise distinct
and its 62 values are pairwise distinct, so no two symbols share a mapped
value. -/
theorem C9_char_map_nodup :
    (char_to_number_mapping.map Prod.fst).Nodup ∧
    (char_to_number_mapping.map Prod.snd).Nodup := by
  constructor <;> decide

/-- C10: `reduce_to_ten_digits` is total over every integer, zero and
negatives included — the decimal rendering is plain ASCII (hence valid
UTF-8), the first 10 hex digest characters always parse, and the result is
in [0, 9999999999]. -/
theorem C10_reduce_total_int (z : Int) :
    (∀ c ∈ intDec z, c.toNat < 128) ∧
    ∃ v, reduce_to_ten_digits z = some v ∧ v ≤ 9999999999 := by
  refine ⟨?_, reduce_total z⟩
  have hascii : ∀ c ∈ string_digits, c.toNat < 128 := by decide
  intro c hc
  rw [intDec] at hc
  by_cases hz : z < 0
  · rw [if_pos hz] at hc
    rcases List.mem_cons.mp hc with h1 | h2
    · rw [h1]
      decide
    · exact hascii c (natDec_digits _ c h2)
  · rw [if_neg hz] at hc
    exact hascii c (natDec_digits _ c hc)

end Ran2
